import Mathlib

/-!
Verification development for the JARVIS voice-assistant repository.

Shallow embedding of the Python sources:
  * `src/openrouter_client.py` — AI client with localized fallback responses
  * `src/jarvis_core.py`       — core coordinator (command dispatch, context window)
  * `src/speech_engine.py`     — text-to-speech wrapper with re-entrancy guard
  * `src/camera_manager.py`    — camera photo capture
  * `src/config.py`            — dot-path configuration store

Machine-level effects (actual HTTP, audio, files) are represented by explicit
data: an outcome datatype for the HTTP round trip, a list of spoken utterances,
a list of written file names.  Pure logic (string matching, list slicing,
dictionary walking) is translated directly from the source.
-/

namespace Jarvis

/-! ## Python string primitives used by the sources -/

/-- Lowercasing of a single character as Python `str.lower` acts on the
characters appearing in this code base: ASCII letters and the Latin-1
uppercase letters (U+00C0–U+00DE except the multiplication sign U+00D7)
map to their lowercase forms 0x20 higher; everything else is unchanged. -/
def lowerChar (c : Char) : Char :=
  if 'A' ≤ c ∧ c ≤ 'Z' then Char.ofNat (c.toNat + 32)
  else if 0xC0 ≤ c.toNat ∧ c.toNat ≤ 0xDE ∧ c.toNat ≠ 0xD7 then Char.ofNat (c.toNat + 32)
  else c

/-- Python `s.lower()` (restricted to the character ranges above). -/
def pyLower (s : String) : String :=
  ⟨s.data.map lowerChar⟩

/-- Whether `n` is a prefix of `l` (over characters), used to define
Python substring containment. -/
def listStartsWith : List Char → List Char → Bool
  | [], _ => true
  | _ :: _, [] => false
  | a :: as, b :: bs => a = b && listStartsWith as bs

/-- Whether `n` occurs as a contiguous sublist of `l`. -/
def listOccurs (n : List Char) : List Char → Bool
  | [] => n.isEmpty
  | c :: rest => listStartsWith n (c :: rest) || listOccurs n rest

/-- Python `needle in hay` for strings: substring containment. -/
def strIn (needle hay : String) : Bool :=
  listOccurs needle.data hay.data

/-- First-match association-list lookup, modelling Python `dict.get` /
`key in dict` / `dict[key]` on string-keyed dictionaries. -/
def assoc (k : String) : List (String × α) → Option α
  | [] => none
  | (k₀, v) :: rest => if k₀ = k then some v else assoc k rest

/-! ## `src/openrouter_client.py` -/

/-- Fallback response table of `OpenRouterClient._get_fallback_response`
(`openrouter_client.py` lines 77–83). -/
def fallback_responses : List (String × String) :=
  [ ("pt-BR", "Desculpe, estou com dificuldades para processar sua solicitação no momento. Tente novamente em alguns instantes."),
    ("en-US", "Sorry, I\x27m having trouble processing your request right now. Please try again in a moment."),
    ("es-ES", "Lo siento, tengo problemas para procesar tu solicitud en este momento. Inténtalo de nuevo en unos momentos."),
    ("fr-FR", "Désolé, j\x27ai des difficultés à traiter votre demande en ce moment. Veuillez réessayer dans quelques instants."),
    ("de-DE", "Entschuldigung, ich habe gerade Schwierigkeiten, Ihre Anfrage zu bearbeiten. Versuchen Sie es in einem Moment noch einmal.") ]

/-- Model of `OpenRouterClient._get_fallback_response`: `fallback_responses.get(language,
fallback_responses[quote en-US quote])` (`openrouter_client.py` line 85). -/
def get_fallback_response (language : String) : String :=
  (assoc language fallback_responses).getD
    "Sorry, I\x27m having trouble processing your request right now. Please try again in a moment."

/-- Outcome of the HTTP round trip performed by `chat_completion`
(`openrouter_client.py` lines 45–58): a transport error
(`requests.exceptions.RequestException`, including non-2xx via
`raise_for_status`), a body that is not JSON (`json.JSONDecodeError`), or a
parsed body whose `choices[i].message.content` strings are listed in order
(an absent or empty `choices` is `ok []`). -/
inductive HttpOutcome where
  | transportError
  | jsonError
  | ok (choices : List String)
  deriving DecidableEq, Repr

/-- One chat message `{role, content}` as sent to / kept by the AI layer. -/
structure Msg where
  role : String
  content : String
  deriving DecidableEq, Repr

/-- Model of `OpenRouterClient.chat_completion` (`openrouter_client.py` lines 32–73):
returns `choices[0].message.content.strip()` when the response has a
non-empty `choices` list, and the localized fallback on a transport error, a
JSON decode error, or a response without usable choices.  The `messages`
payload does not influence the modelled result but is kept for the call
shape. -/
def chat_completion (_messages : List Msg) (language : String) (outcome : HttpOutcome) : String :=
  match outcome with
  | .transportError => get_fallback_response language
  | .jsonError => get_fallback_response language
  | .ok [] => get_fallback_response language
  | .ok (c :: _) => c.trim

/-! ## `src/jarvis_core.py` -/

/-- One entry of `JarvisCore.conversation_history` (`jarvis_core.py`
lines 151–156 and 168–173): role, content and language.  The wall-clock
timestamp also stored there never influences behaviour and is omitted. -/
structure Turn where
  role : String
  content : String
  language : String
  deriving DecidableEq, Repr

/-- Projection used by `_build_context` (`jarvis_core.py` lines 278–282):
only role and content of a history entry are forwarded to the AI. -/
def turnMsg (t : Turn) : Msg :=
  ⟨t.role, t.content⟩

/-- The `system_prompts` table of `_build_context` (`jarvis_core.py`
lines 258–271). -/
def system_prompts : List (String × Msg) :=
  [ ("pt-BR", ⟨"system", "Você é JARVIS, um assistente virtual inteligente. Seja útil, conciso e amigável. Responda sempre em português brasileiro."⟩),
    ("en-US", ⟨"system", "You are JARVIS, an intelligent virtual assistant. Be helpful, concise and friendly. Always respond in English."⟩),
    ("es-ES", ⟨"system", "Eres JARVIS, un asistente virtual inteligente. Sé útil, conciso y amigable. Responde siempre en español."⟩) ]

/-- Model of `system_prompts.get(language, system_prompts[quote pt-BR quote])`
(`jarvis_core.py` line 273). -/
def systemPromptFor (language : String) : Msg :=
  (assoc language system_prompts).getD
    ⟨"system", "Você é JARVIS, um assistente virtual inteligente. Seja útil, conciso e amigável. Responda sempre em português brasileiro."⟩

/-- The history window of `_build_context` (`jarvis_core.py` line 276):
`history[-6:] if len(history) > 6 else history`. -/
def recentHistory (history : List Turn) : List Turn :=
  if history.length > 6 then history.drop (history.length - 6) else history

/-- Model of `JarvisCore._build_context` (`jarvis_core.py` lines 255–284): the
language-specific system prompt followed by the recent history window. -/
def build_context (language : String) (history : List Turn) : List Msg :=
  systemPromptFor language :: (recentHistory history).map turnMsg

/-- The camera block of `_handle_system_commands` (`jarvis_core.py`
lines 200–209), on the lowercased command `cl`.  `photoFilename` stands for
the name returned by `camera_manager.take_photo()` and interpolated into the
photo response.  `none` both when the outer `any(...)` fails and when every
inner condition fails (Python then falls through to the next block). -/
def cameraCommandResp (photoFilename : String) (cl : String) : Option String :=
  if strIn "câmera" cl || strIn "camera" cl || strIn "foto" cl || strIn "picture" cl then
    if strIn "ligar" cl || strIn "ativar" cl || strIn "turn on" cl then
      some "Câmera ativada com sucesso."
    else if strIn "desligar" cl || strIn "desativar" cl || strIn "turn off" cl then
      some "Câmera desativada."
    else if strIn "foto" cl || strIn "picture" cl || strIn "capturar" cl then
      some ("Foto capturada e salva como " ++ photoFilename ++ ".")
    else none
  else none

/-- The volume block of `_handle_system_commands` (`jarvis_core.py`
lines 212–221). -/
def volumeCommandResp (cl : String) : Option String :=
  if strIn "volume" cl || strIn "som" cl then
    if strIn "aumentar" cl || strIn "increase" cl || strIn "up" cl then
      some "Volume aumentado."
    else if strIn "diminuir" cl || strIn "decrease" cl || strIn "down" cl then
      some "Volume diminuído."
    else if strIn "mudo" cl || strIn "mute" cl then
      some "Som silenciado."
    else none
  else none

/-- The language block of `_handle_system_commands` (`jarvis_core.py`
lines 224–233). -/
def languageCommandResp (cl : String) : Option String :=
  if strIn "idioma" cl || strIn "language" cl then
    if strIn "inglês" cl || strIn "english" cl then
      some "Language changed to English."
    else if strIn "português" cl || strIn "portuguese" cl then
      some "Idioma alterado para português."
    else if strIn "espanhol" cl || strIn "spanish" cl then
      some "Idioma cambiado a español."
    else none
  else none

/-- Model of `JarvisCore._handle_system_commands` (`jarvis_core.py` lines 195–235):
lowercase the command, then try the camera, volume and language blocks in
order; the first block that returns a response wins.  Side effects on the
camera, the volume and `current_language` are elided. -/
def handle_system_commands (photoFilename : String) (command : String) : Option String :=
  let cl := pyLower command
  match cameraCommandResp photoFilename cl with
  | some r => some r
  | none =>
    match volumeCommandResp cl with
    | some r => some r
    | none => languageCommandResp cl

/-- Python truthiness of `Optional[str]` as used by
`if system_response:` (`jarvis_core.py` line 161): `None` and the empty
string are falsy. -/
def pyTruthy : Option String → Bool
  | none => false
  | some s => !(s == "")

/-- Model of `JarvisCore._process_with_ai` (`jarvis_core.py` lines 237–253): without a
client a fixed notice is returned; otherwise the context plus the current
user message is sent to `chat_completion`.  The second component records the
message list passed to the AI client (`none` when the client is never
invoked). -/
def process_with_ai (history : List Turn) (text language : String) (hasClient : Bool)
    (outcome : HttpOutcome) : String × Option (List Msg) :=
  if !hasClient then
    ("Sistema de IA não configurado. Verifique sua chave de API.", none)
  else
    let messages := build_context language history ++ [⟨"user", text⟩]
    (chat_completion messages language outcome, some messages)

/-- Coordinator state relevant to command processing: the conversation
history and `current_language` (`jarvis_core.py` lines 53–54). -/
structure CoreState where
  history : List Turn
  current_language : String
  deriving DecidableEq, Repr

/-- Observable outcome of one `_process_command` run: final history, the
utterances handed to `speak` as (text, language) pairs, the payloads of
`on_error` events, the payloads of `on_response` events, the message list
passed to the AI client (if any), whether `chat_completion` was invoked, the
response chosen (absent on the error path), whether an exception escaped the
method, and the final value of `is_processing`. -/
structure ProcResult where
  history : List Turn
  spoken : List (String × String)
  errorEvents : List String
  responseEvents : List (String × String)
  aiMessages : Option (List Msg)
  aiInvoked : Bool
  response : Option String
  escaped : Bool
  is_processing_final : Bool
  deriving DecidableEq, Repr

/-- Model of `JarvisCore.speak` (`jarvis_core.py` lines 320–336) as the list of
utterances that reach the speech engine: empty text returns before speaking. -/
def speak_utterances (text language : String) : List (String × String) :=
  if text == "" then [] else [(text, language)]

/-- Normal-path result assembly of `_process_command` (`jarvis_core.py`
lines 167–193): append the assistant turn, speak the response in the
command language, fire `on_response`, clear `is_processing`. -/
def procOk (hist1 : List Turn) (response language : String)
    (aiMessages : Option (List Msg)) (aiInvoked : Bool) : ProcResult :=
  { history := hist1 ++ [⟨"assistant", response, language⟩]
    spoken := speak_utterances response language
    errorEvents := []
    responseEvents := [(response, language)]
    aiMessages := aiMessages
    aiInvoked := aiInvoked
    response := some response
    escaped := false
    is_processing_final := false }

/-- Model of `JarvisCore._process_command` (`jarvis_core.py` lines 139–193).  The
user turn is appended, then system commands are tried, then the AI path.
`exc` injects an exception raised by a system-command side effect between
the user-turn append and the response computation (for example
`camera_manager.take_photo()` raising `RuntimeError` while the camera is
inactive); the `except` clause (lines 185–189) speaks a fixed Portuguese
error message via `self.speak(error_msg)` — with no language argument, so
`speak` falls back to `current_language` — and fires `on_error` with the
exception text; the `finally` clause (lines 191–193) clears
`is_processing`.  No exception propagates out in either case. -/
def process_command (st : CoreState) (text language : String) (hasClient : Bool)
    (outcome : HttpOutcome) (photoFilename : String) (exc : Option String) : ProcResult :=
  let hist1 := st.history ++ [⟨"user", text, language⟩]
  match exc with
  | some e =>
    { history := hist1
      spoken := speak_utterances "Desculpe, ocorreu um erro ao processar seu comando." st.current_language
      errorEvents := [e]
      responseEvents := []
      aiMessages := none
      aiInvoked := false
      response := none
      escaped := false
      is_processing_final := false }
  | none =>
    let sysResp := handle_system_commands photoFilename text
    if pyTruthy sysResp then
      procOk hist1 (sysResp.getD "") language none false
    else
      let (response, aiMessages) := process_with_ai hist1 text language hasClient outcome
      procOk hist1 response language aiMessages aiMessages.isSome

/-! ## Coordinator status flags (`jarvis_core.py` lines 34–36) -/

/-- The three coordinator status booleans. -/
structure Flags where
  is_listening : Bool
  is_processing : Bool
  is_speaking : Bool
  deriving DecidableEq, Repr

/-- A single assignment to one of the three flags. -/
inductive FlagAssign where
  | listening (b : Bool)
  | processing (b : Bool)
  | speaking (b : Bool)
  deriving DecidableEq, Repr

/-- Apply one flag assignment. -/
def applyAssign (f : Flags) : FlagAssign → Flags
  | .listening b => { f with is_listening := b }
  | .processing b => { f with is_processing := b }
  | .speaking b => { f with is_speaking := b }

/-- All states visited while executing a sequence of flag assignments,
including the initial one. -/
def flagTrace (f : Flags) : List FlagAssign → List Flags
  | [] => [f]
  | a :: rest => f :: flagTrace (applyAssign f a) rest

/-- The flag assignments executed, in program order, by one
`_process_command` run whose response is spoken: `is_processing = True`
(line 142), then inside `speak` `is_speaking = True` (line 327) and
`is_speaking = False` (line 335), then in the `finally` clause
`is_processing = False` (line 192). -/
def processCommandAssigns : List FlagAssign :=
  [.processing true, .speaking true, .speaking false, .processing false]

/-- The all-false flag state the coordinator starts from
(`jarvis_core.py` lines 34–36). -/
def idleFlags : Flags :=
  ⟨false, false, false⟩

/-- At most one of the three flags is set. -/
def atMostOneFlag (f : Flags) : Bool :=
  !(f.is_listening && f.is_processing) && !(f.is_listening && f.is_speaking)
    && !(f.is_processing && f.is_speaking)

/-! ## `src/speech_engine.py` — `speak` re-entrancy (lines 77–101)

Two concurrent calls to `SpeechEngine.speak` are modelled as two threads,
each executing: one atomic lock-protected section that either observes
`is_speaking` true and returns (lines 82–84) or sets it to true
(line 86); then the synthesis region (lines 88–95); then the `finally`
clearing the flag (line 101).  The lock makes check-then-set one step. -/

/-- Program counter of one `speak` call. -/
inductive SpeakPc where
  | start
  | synth
  | done
  | dropped
  deriving DecidableEq, Repr

/-- Joint state of the engine flag and the two calls. -/
structure SpeakSt where
  speaking : Bool
  pcA : SpeakPc
  pcB : SpeakPc
  deriving DecidableEq, Repr

/-- Interleaved small-step semantics of the two `speak` calls. -/
inductive SpeakStep : SpeakSt → SpeakSt → Prop where
  | enterA (s : SpeakSt) : s.pcA = .start → s.speaking = false →
      SpeakStep s ⟨true, .synth, s.pcB⟩
  | dropA (s : SpeakSt) : s.pcA = .start → s.speaking = true →
      SpeakStep s ⟨s.speaking, .dropped, s.pcB⟩
  | exitA (s : SpeakSt) : s.pcA = .synth →
      SpeakStep s ⟨false, .done, s.pcB⟩
  | enterB (s : SpeakSt) : s.pcB = .start → s.speaking = false →
      SpeakStep s ⟨true, s.pcA, .synth⟩
  | dropB (s : SpeakSt) : s.pcB = .start → s.speaking = true →
      SpeakStep s ⟨s.speaking, s.pcA, .dropped⟩
  | exitB (s : SpeakSt) : s.pcB = .synth →
      SpeakStep s ⟨false, s.pcA, .done⟩

/-- Both calls pending, engine idle. -/
def speakInit : SpeakSt :=
  ⟨false, .start, .start⟩

/-- States reachable from `speakInit` under any interleaving. -/
def SpeakReachable (s : SpeakSt) : Prop :=
  Relation.ReflTransGen SpeakStep speakInit s

/-! ## `src/camera_manager.py` — `take_photo` (lines 221–241) -/

/-- Camera state relevant to `take_photo`: the `is_active` flag and the
latest frame (an opaque identifier, `None` when no frame was captured). -/
structure CameraSt where
  is_active : Bool
  current_frame : Option Nat
  deriving DecidableEq, Repr

/-- Model of `CameraManager.take_photo` (`camera_manager.py` lines 221–241), returning
either the raised error message or the returned filename together with the
list of files written by `cv2.imwrite`.  `timestamp` stands for
`datetime.now().strftime(...)`. -/
def take_photo (st : CameraSt) (filename : Option String) (timestamp : String) :
    Except String (String × List String) :=
  if !st.is_active then
    .error "Camera is not active"
  else
    match st.current_frame with
    | none => .error "No frame available"
    | some _ =>
      let fn := filename.getD ("output/photos/jarvis_photo_" ++ timestamp ++ ".jpg")
      .ok (fn, [fn])

/-! ## `src/config.py` — dot-path configuration store -/

/-- JSON-like configuration values: strings, exact decimal numbers (rationals
cover the integers and the decimals `0.8`, `0.95` appearing in the defaults),
booleans, null, arrays and string-keyed objects.  Python dictionaries are
modelled as association lists looked up by first match; real dictionaries
never hold duplicate keys, captured below by `wfFields`. -/
inductive JVal where
  | str (s : String)
  | num (q : ℚ)
  | bool (b : Bool)
  | null
  | arr (xs : List JVal)
  | obj (fields : List (String × JVal))
  deriving Repr

/-- Whether a value is a dictionary (`isinstance(value, dict)`). -/
def JVal.isObj : JVal → Bool
  | .obj _ => true
  | _ => false

/-- Python `d[k] = v` on a dictionary modelled as an association list:
replace the first binding of `k`, or append a new one. -/
def setKey : List (String × JVal) → String → JVal → List (String × JVal)
  | [], k, v => [(k, v)]
  | (k₀, v₀) :: rest, k, v =>
    if k₀ = k then (k₀, v) :: rest else (k₀, v₀) :: setKey rest k v

/-- Python `key.split(".")` on the character list: segments between dots,
with empty segments preserved and at least one (possibly empty) segment
always produced. -/
def splitDotAux (acc : List Char) : List Char → List String
  | [] => [String.mk acc.reverse]
  | c :: rest =>
    if c = '.' then String.mk acc.reverse :: splitDotAux [] rest
    else splitDotAux (c :: acc) rest

/-- Python `key.split(".")` as used by `Config.get` / `Config.set`
(`config.py` lines 109 and 122). -/
def pySplitDot (key : String) : List String :=
  splitDotAux [] key.data

/-- The loop of `Config.get` (`config.py` lines 107–118): walk the key
segments, returning `default` as soon as the current value is not a
dictionary or lacks the segment. -/
def getLoop : JVal → List String → JVal → JVal
  | v, [], _ => v
  | .obj fs, k :: ks, dflt =>
    match assoc k fs with
    | some v => getLoop v ks dflt
    | none => dflt
  | _, _ :: _, dflt => dflt

/-- Model of `Config.get(key, default)` (`config.py` lines 107–118): split on dots and
walk. -/
def getCfg (cfg : JVal) (key : String) (dflt : JVal) : JVal :=
  getLoop cfg (pySplitDot key) dflt

/-- Specification-side path lookup: `some` exactly when every segment steps
through a dictionary that has it. -/
def pathGet : JVal → List String → Option JVal
  | v, [] => some v
  | .obj fs, k :: ks =>
    match assoc k fs with
    | some v => pathGet v ks
    | none => none
  | _, _ :: _ => none

/-- The loop of `Config.set` (`config.py` lines 120–130) on the fields of a
dictionary.  For each intermediate segment Python creates `{}` when the key
is absent and then descends; if the value it descends into is not a
dictionary, the next `k not in config` (or the final `config[keys[-1]] =
value`) raises `TypeError`, modelled as `.error ()`.  The final segment is a
plain dictionary assignment. -/
def setPath : List (String × JVal) → List String → JVal → Except Unit (List (String × JVal))
  | _, [], _ => .error ()
  | fs, [k], v => .ok (setKey fs k v)
  | fs, k :: k' :: ks, v =>
    match assoc k fs with
    | none =>
      match setPath [] (k' :: ks) v with
      | .ok sub => .ok (setKey fs k (.obj sub))
      | .error e => .error e
    | some (.obj sub) =>
      match setPath sub (k' :: ks) v with
      | .ok sub' => .ok (setKey fs k (.obj sub'))
      | .error e => .error e
    | some _ => .error ()

/-- Model of `Config.set(key, value)` (`config.py` lines 120–130).  `self.config` is
always a dictionary; `pySplitDot key` is never empty, so the `[]` branch of
`setPath` is unreachable. -/
def setCfg (cfg : JVal) (key : String) (v : JVal) : Except Unit JVal :=
  match cfg with
  | .obj fs =>
    match setPath fs (pySplitDot key) v with
    | .ok fs2 => .ok (.obj fs2)
    | .error e => .error e
  | _ => .error ()

mutual

/-- One iteration of the `deep_merge` loop of `Config.merge_config`
(`config.py` lines 97–103): `default[key] = value`, except that two
dictionaries are merged recursively. -/
def mergeStep (d : List (String × JVal)) (k : String) (v : JVal) : List (String × JVal) :=
  match assoc k d, v with
  | some (.obj df), .obj uf => setKey d k (.obj (mergeObj df uf))
  | _, _ => setKey d k v

/-- Model of `deep_merge(default, user)` of `Config.merge_config` (`config.py`
lines 97–103), iterating over the user fields in order. -/
def mergeObj (d : List (String × JVal)) : List (String × JVal) → List (String × JVal)
  | [] => d
  | (k, v) :: rest => mergeObj (mergeStep d k v) rest

end

/-- Keys of an association list. -/
def keysOf (fs : List (String × JVal)) : List String :=
  fs.map Prod.fst

/-- Boolean membership of a key in a key list. -/
def keyMem (k : String) : List String → Bool
  | [] => false
  | k₀ :: rest => k₀ == k || keyMem k rest

mutual

/-- Well-formed value: every object reachable outside arrays has pairwise
distinct keys.  True of every value coming from a real Python dictionary. -/
def wfv : JVal → Bool
  | .obj fs => wfFields fs
  | _ => true

/-- Well-formed fields: distinct keys, values well-formed. -/
def wfFields : List (String × JVal) → Bool
  | [] => true
  | (k, v) :: rest => !keyMem k (keysOf rest) && wfv v && wfFields rest

end

/-- The default configuration built by `Config.load_default_config`
(`config.py` lines 21–82); `apiKey` is `os.getenv("OPENROUTER_API_KEY",
"")`. -/
def defaultFields (apiKey : String) : List (String × JVal) :=
  [ ("openrouter", .obj
      [ ("api_key", .str apiKey),
        ("base_url", .str "https://openrouter.ai/api/v1"),
        ("model", .str "anthropic/claude-3-sonnet"),
        ("max_tokens", .num 1000) ]),
    ("voice", .obj
      [ ("engine", .str "pyttsx3"),
        ("rate", .num 150),
        ("volume", .num 0.8),
        ("voice_id", .num 0),
        ("language", .str "pt-br") ]),
    ("speech", .obj
      [ ("language", .str "pt-BR"),
        ("timeout", .num 5),
        ("phrase_timeout", .num 1),
        ("energy_threshold", .num 300) ]),
    ("camera", .obj
      [ ("device_id", .num 0),
        ("width", .num 640),
        ("height", .num 480),
        ("fps", .num 30) ]),
    ("ui", .obj
      [ ("theme", .str "dark"),
        ("accent_color", .str "#00D4FF"),
        ("background_color", .str "#0A0A0A"),
        ("text_color", .str "#FFFFFF"),
        ("window_size", .str "1200x800"),
        ("transparency", .num 0.95) ]),
    ("languages", .obj
      [ ("supported", .arr [.str "pt-BR", .str "en-US", .str "es-ES", .str "fr-FR", .str "de-DE"]),
        ("default", .str "pt-BR") ]),
    ("features", .obj
      [ ("voice_activation", .bool true),
        ("wake_word", .str "jarvis"),
        ("auto_listen", .bool true),
        ("face_recognition", .bool false),
        ("gesture_control", .bool false),
        ("home_automation", .bool false) ]) ]

/-- Value of `self.config` right after `load_default_config`. -/
def defaultConfig (apiKey : String) : JVal :=
  .obj (defaultFields apiKey)

/-- Fields of an object value (`[]` otherwise). -/
def objFields : JVal → List (String × JVal)
  | .obj fs => fs
  | _ => []

/-- Constructing a fresh `Config` over a saved user file (`config.py`
lines 17–19 with 84–105): load the defaults, then `merge_config` the parsed
JSON object over them.  `save_user_config` (lines 132–137) dumps the full
current configuration, so the saved file is the fields of the live config. -/
def reloadConfig (apiKey : String) (saved : List (String × JVal)) : JVal :=
  .obj (mergeObj (defaultFields apiKey) saved)

/-- The value carried by a successful `Except`, `null` on error; used to
write closed statements about the result of a `set`. -/
def cfgAfter (e : Except Unit JVal) : JVal :=
  match e with
  | .ok v => v
  | .error _ => .null

/-- Number of history entries with the given role. -/
def countRole (role : String) (history : List Turn) : Nat :=
  (history.filter (fun t => t.role == role)).length

/-- Inductive invariant of the two-call `speak` system: a call inside the
synthesis region implies the `is_speaking` flag is set, and the two calls
are never inside it together. -/
def SpeakInv (s : SpeakSt) : Prop :=
  (s.pcA = SpeakPc.synth → s.speaking = true) ∧
  (s.pcB = SpeakPc.synth → s.speaking = true) ∧
  ¬(s.pcA = SpeakPc.synth ∧ s.pcB = SpeakPc.synth)

/-! ## Theorems -/

/-- The `getLoop` walk of `Config.get` agrees with path lookup with a
default. -/
theorem getLoop_eq_pathGet (ks : List String) (v dflt : JVal) :
    getLoop v ks dflt = (pathGet v ks).getD dflt := by
  induction ks generalizing v with
  | nil => cases v <;> rfl
  | cons k ks ih =>
    cases v with
    | obj fs =>
      simp only [getLoop, pathGet]
      cases assoc k fs with
      | none => rfl
      | some w => simp [ih]
    | str s => rfl
    | num q => rfl
    | bool b => rfl
    | null => rfl
    | arr xs => rfl

/-- C10: `Config.get` is total — the embedded loop is a total function — and
for every configuration value, every key and every default it returns the
value stored at the dot path when each segment steps through a dictionary
that has it, and the provided default in every other case (absent segment or
non-dictionary intermediate), captured by `pathGet`. -/
theorem config_get_total (cfg : JVal) (key : String) (dflt : JVal) :
    getCfg cfg key dflt = (pathGet cfg (pySplitDot key)).getD dflt :=
  getLoop_eq_pathGet _ _ _

/-- C9: for a language outside the five keyed codes the fallback is the
English (`en-US`) fallback string, not a string in the requested language. -/
theorem fallback_unknown_language_is_english (language : String)
    (h : language ∉ ["pt-BR", "en-US", "es-ES", "fr-FR", "de-DE"]) :
    get_fallback_response language =
        "Sorry, I\x27m having trouble processing your request right now. Please try again in a moment." ∧
    get_fallback_response language = get_fallback_response "en-US" := by
  simp only [List.mem_cons, List.not_mem_nil, or_false, not_or] at h
  obtain ⟨h1, h2, h3, h4, h5⟩ := h
  constructor <;>
    simp [get_fallback_response, assoc, fallback_responses,
      Ne.symm h1, Ne.symm h2, Ne.symm h3, Ne.symm h4, Ne.symm h5]

/-- Witness for C9 at the unknown language code `it-IT`. -/
theorem fallback_unknown_language_is_english_witness :
    get_fallback_response "it-IT" =
        "Sorry, I\x27m having trouble processing your request right now. Please try again in a moment." ∧
    get_fallback_response "it-IT" = get_fallback_response "en-US" :=
  fallback_unknown_language_is_english "it-IT" (by decide)

/-- C5: with the camera inactive, `take_photo` fails with the descriptive
error `Camera is not active`; no filename is returned and the write list is
never produced. -/
theorem take_photo_inactive (st : CameraSt) (filename : Option String)
    (timestamp : String) (h : st.is_active = false) :
    take_photo st filename timestamp = .error "Camera is not active" := by
  simp [take_photo, h]

/-- Witness for C5: inactive camera that even holds a frame. -/
theorem take_photo_inactive_witness :
    take_photo ⟨false, some 0⟩ none "20240101_120000" = .error "Camera is not active" :=
  take_photo_inactive ⟨false, some 0⟩ none "20240101_120000" rfl

/-- C2 (counterexample): the flag state with `is_processing` and
`is_speaking` both true is visited by `_process_command` — `speak` runs
while the `finally` clause has not yet cleared `is_processing` — so the
three flags are not pairwise mutually exclusive. -/
theorem flags_not_mutually_exclusive :
    (⟨false, true, true⟩ : Flags) ∈ flagTrace idleFlags processCommandAssigns ∧
    atMostOneFlag ⟨false, true, true⟩ = false := by
  decide

/-- C2 (amended): along the `_process_command` execution the coordinator
never listens, and `is_speaking` is only ever true while `is_processing`
is also true — processing and speaking do overlap, and that is the only
overlap; all three flags are never simultaneously true. -/
theorem flags_speaking_implies_processing :
    ∀ f ∈ flagTrace idleFlags processCommandAssigns,
      f.is_listening = false ∧ (f.is_speaking = true → f.is_processing = true) := by
  decide

/-- Witness for the amended C2 at the overlap state itself. -/
theorem flags_speaking_implies_processing_witness :
    (⟨false, true, true⟩ : Flags).is_listening = false ∧
    ((⟨false, true, true⟩ : Flags).is_speaking = true →
      (⟨false, true, true⟩ : Flags).is_processing = true) :=
  flags_speaking_implies_processing ⟨false, true, true⟩ (by decide)

/-- C8 (amended): an exception raised while processing a command is caught
inside `_process_command`: the fixed Portuguese error message is spoken
using the coordinator current language (not the command language), the
`on_error` event fires with the error text, `is_processing` is cleared, and
nothing escapes the method. -/
theorem process_command_exception_contained (st : CoreState)
    (text language pf : String) (hasClient : Bool) (outcome : HttpOutcome) (e : String) :
    (process_command st text language hasClient outcome pf (some e)).escaped = false ∧
    (process_command st text language hasClient outcome pf (some e)).spoken =
      [("Desculpe, ocorreu um erro ao processar seu comando.", st.current_language)] ∧
    (process_command st text language hasClient outcome pf (some e)).errorEvents = [e] ∧
    (process_command st text language hasClient outcome pf (some e)).is_processing_final = false ∧
    (process_command st text language hasClient outcome pf (some e)).history =
      st.history ++ [⟨"user", text, language⟩] := by
  simp [process_command, speak_utterances]

/-- C8 (counterexample): the error utterance is not localized to the
command language — a failing `en-US` command and a failing `de-DE` command
are both answered with the same fixed Portuguese sentence. -/
theorem error_utterance_not_localized :
    ((process_command ⟨[], "en-US"⟩ "take a photo" "en-US" true (.ok [])
        "p.jpg" (some "Camera is not active")).spoken.map Prod.fst) =
      ["Desculpe, ocorreu um erro ao processar seu comando."] ∧
    ((process_command ⟨[], "en-US"⟩ "take a photo" "en-US" true (.ok [])
        "p.jpg" (some "Camera is not active")).spoken.map Prod.fst) =
      ((process_command ⟨[], "de-DE"⟩ "mach ein foto" "de-DE" true (.ok [])
        "p.jpg" (some "Camera is not active")).spoken.map Prod.fst) := by
  decide

/-- The invariant holds initially. -/
theorem speakInv_init : SpeakInv speakInit := by
  refine ⟨?_, ?_, ?_⟩ <;> decide

/-- The invariant is preserved by every interleaved step. -/
theorem speakInv_step (s s₂ : SpeakSt) (h : SpeakInv s) (hs : SpeakStep s s₂) :
    SpeakInv s₂ := by
  obtain ⟨hA, hB, hAB⟩ := h
  cases hs with
  | enterA h1 h2 =>
    refine ⟨fun _ => rfl, fun _ => rfl, ?_⟩
    rintro ⟨-, hb⟩
    rw [hB hb] at h2
    exact Bool.noConfusion h2
  | dropA h1 h2 =>
    refine ⟨fun hc => SpeakPc.noConfusion hc, hB, ?_⟩
    rintro ⟨hc, -⟩
    exact SpeakPc.noConfusion hc
  | exitA h1 =>
    refine ⟨fun hc => SpeakPc.noConfusion hc, ?_, ?_⟩
    · intro hb
      exact absurd ⟨h1, hb⟩ hAB
    · rintro ⟨hc, -⟩
      exact SpeakPc.noConfusion hc
  | enterB h1 h2 =>
    refine ⟨fun _ => rfl, fun _ => rfl, ?_⟩
    rintro ⟨ha, -⟩
    rw [hA ha] at h2
    exact Bool.noConfusion h2
  | dropB h1 h2 =>
    refine ⟨hA, fun hc => SpeakPc.noConfusion hc, ?_⟩
    rintro ⟨-, hc⟩
    exact SpeakPc.noConfusion hc
  | exitB h1 =>
    refine ⟨?_, fun hc => SpeakPc.noConfusion hc, ?_⟩
    · intro ha
      exact absurd ⟨ha, h1⟩ hAB
    · rintro ⟨-, hc⟩
      exact SpeakPc.noConfusion hc

/-- The invariant holds in every reachable state. -/
theorem speakInv_reachable (s : SpeakSt) (h : SpeakReachable s) : SpeakInv s := by
  induction h with
  | refl => exact speakInv_init
  | tail _ hstep ih => exact speakInv_step _ _ ih hstep

/-- C7: two concurrent `speak` calls never synthesize simultaneously — in
every reachable interleaving at most one call is inside the synthesis
region — and while one call is synthesizing, a step taken by the other
pending call can only drop it (the guarded check under the speech lock
returns immediately), never admit it into synthesis. -/
theorem speak_no_overlapping_synthesis :
    (∀ s, SpeakReachable s → ¬(s.pcA = SpeakPc.synth ∧ s.pcB = SpeakPc.synth)) ∧
    (∀ s s₂, SpeakReachable s → s.pcA = SpeakPc.synth → s.pcB = SpeakPc.start →
      SpeakStep s s₂ → s₂.pcB ≠ SpeakPc.synth) := by
  constructor
  · intro s hs
    exact (speakInv_reachable s hs).2.2
  · intro s s₂ hs hA hB hstep
    have hspeak : s.speaking = true := (speakInv_reachable s hs).1 hA
    cases hstep with
    | enterA h1 h2 =>
      rw [h1] at hA
      exact SpeakPc.noConfusion hA
    | dropA h1 h2 =>
      rw [h1] at hA
      exact SpeakPc.noConfusion hA
    | exitA h1 =>
      show s.pcB ≠ SpeakPc.synth
      rw [hB]
      decide
    | enterB h1 h2 =>
      rw [hspeak] at h2
      exact Bool.noConfusion h2
    | dropB h1 h2 =>
      exact fun hc => SpeakPc.noConfusion hc
    | exitB h1 =>
      rw [hB] at h1
      exact SpeakPc.noConfusion h1

/-- Witness for C7: after the first call entered synthesis from the initial
state, the second call taking its guarded-check step is dropped. -/
theorem speak_no_overlapping_synthesis_witness :
    (⟨true, SpeakPc.synth, SpeakPc.dropped⟩ : SpeakSt).pcB ≠ SpeakPc.synth :=
  speak_no_overlapping_synthesis.2 ⟨true, SpeakPc.synth, SpeakPc.start⟩
    ⟨true, SpeakPc.synth, SpeakPc.dropped⟩
    (Relation.ReflTransGen.single (SpeakStep.enterA speakInit rfl rfl))
    rfl rfl (SpeakStep.dropB ⟨true, SpeakPc.synth, SpeakPc.start⟩ rfl rfl)

/-- The history window never holds more than 6 turns. -/
theorem recentHistory_length_le (h : List Turn) : (recentHistory h).length ≤ 6 := by
  unfold recentHistory
  split
  · simp only [List.length_drop]
    omega
  · omega

/-- The history window is a suffix of the history. -/
theorem recentHistory_suffix (h : List Turn) : recentHistory h <:+ h := by
  unfold recentHistory
  split
  · exact List.drop_suffix _ _
  · exact List.suffix_refl _

/-- C1: when no system command matches, `_process_command` sends the AI
client exactly the language-specific system prompt, then the last at most 6
conversation turns (the freshly appended user turn included), then the
current user message — never more than 8 messages, however long the
accumulated history is. -/
theorem context_window_bounded (st : CoreState) (text language pf : String)
    (outcome : HttpOutcome) (hsys : handle_system_commands pf text = none) :
    (process_command st text language true outcome pf none).aiMessages =
      some (systemPromptFor language ::
        ((recentHistory (st.history ++ [⟨"user", text, language⟩])).map turnMsg ++
          [⟨"user", text⟩])) ∧
    (recentHistory (st.history ++ [⟨"user", text, language⟩])).length ≤ 6 ∧
    recentHistory (st.history ++ [⟨"user", text, language⟩]) <:+
      (st.history ++ [⟨"user", text, language⟩]) ∧
    (∀ msgs, (process_command st text language true outcome pf none).aiMessages = some msgs →
      msgs.length ≤ 8) := by
  have hmsgs : (process_command st text language true outcome pf none).aiMessages =
      some (systemPromptFor language ::
        ((recentHistory (st.history ++ [⟨"user", text, language⟩])).map turnMsg ++
          [⟨"user", text⟩])) := by
    simp [process_command, hsys, pyTruthy, process_with_ai, build_context, procOk]
  refine ⟨hmsgs, recentHistory_length_le _, recentHistory_suffix _, ?_⟩
  intro msgs hm
  rw [hmsgs] at hm
  injection hm with hm
  subst hm
  have := recentHistory_length_le (st.history ++ [⟨"user", text, language⟩])
  simp only [List.length_cons, List.length_append, List.length_map, List.length_cons,
    List.length_nil]
  omega

/-- Witness for C1: with ten prior turns the AI receives exactly 8
messages. -/
theorem context_window_bounded_witness :
    (((process_command ⟨(List.range 10).map (fun i => ⟨"user", toString i, "pt-BR"⟩), "pt-BR"⟩
        "olá" "pt-BR" true (.ok ["hi"]) "p.jpg" none).aiMessages).getD []).length ≤ 8 := by
  have h := context_window_bounded
    ⟨(List.range 10).map (fun i => ⟨"user", toString i, "pt-BR"⟩), "pt-BR"⟩
    "olá" "pt-BR" "p.jpg" (.ok ["hi"]) (by decide)
  obtain ⟨h1, -, -, h4⟩ := h
  have h5 := h4 _ h1
  rw [h1]
  simpa using h5

/-- Every response string of the camera block is non-empty. -/
theorem cameraCommandResp_ne_empty (pf cl r : String)
    (h : cameraCommandResp pf cl = some r) : (r == "") = false := by
  unfold cameraCommandResp at h
  repeat' split at h
  all_goals
    first
    | exact Option.noConfusion h
    | (injection h with h; subst h; rfl)

/-- Every response string of the volume block is non-empty. -/
theorem volumeCommandResp_ne_empty (cl r : String)
    (h : volumeCommandResp cl = some r) : (r == "") = false := by
  unfold volumeCommandResp at h
  repeat' split at h
  all_goals
    first
    | exact Option.noConfusion h
    | (injection h with h; subst h; rfl)

/-- Every response string of the language block is non-empty. -/
theorem languageCommandResp_ne_empty (cl r : String)
    (h : languageCommandResp cl = some r) : (r == "") = false := by
  unfold languageCommandResp at h
  repeat' split at h
  all_goals
    first
    | exact Option.noConfusion h
    | (injection h with h; subst h; rfl)

/-- Every response string produced by `_handle_system_commands` is
non-empty, so it is truthy for the `if system_response:` check. -/
theorem handle_system_commands_ne_empty (pf cmd r : String)
    (h : handle_system_commands pf cmd = some r) : (r == "") = false := by
  simp only [handle_system_commands] at h
  rcases hc : cameraCommandResp pf (pyLower cmd) with - | s
  · rcases hv : volumeCommandResp (pyLower cmd) with - | s
    · simp only [hc, hv] at h
      exact languageCommandResp_ne_empty (pyLower cmd) r h
    · simp only [hc, hv] at h
      injection h with h
      subst h
      exact volumeCommandResp_ne_empty (pyLower cmd) s hv
  · simp only [hc] at h
    injection h with h
    subst h
    exact cameraCommandResp_ne_empty pf (pyLower cmd) s hc

/-- C3: a command recognized by `_handle_system_commands` is answered with
that handler response and `chat_completion` is never invoked; conversely the
AI client is only ever invoked when the handler returned `None`. -/
theorem system_command_short_circuit (st : CoreState) (text language pf : String)
    (hasClient : Bool) (outcome : HttpOutcome) :
    (∀ r, handle_system_commands pf text = some r →
      (process_command st text language hasClient outcome pf none).response = some r ∧
      (process_command st text language hasClient outcome pf none).aiInvoked = false) ∧
    ((process_command st text language hasClient outcome pf none).aiInvoked = true →
      handle_system_commands pf text = none) := by
  constructor
  · intro r h
    have hne := handle_system_commands_ne_empty pf text r h
    constructor <;> simp [process_command, h, pyTruthy, hne, procOk]
  · intro hAi
    rcases hh : handle_system_commands pf text with - | r
    · rfl
    · have hne := handle_system_commands_ne_empty pf text r hh
      rw [show (process_command st text language hasClient outcome pf none).aiInvoked = false by
        simp [process_command, hh, pyTruthy, hne, procOk]] at hAi
      exact Bool.noConfusion hAi

/-- Witness for C3 at the system command `ligar câmera`. -/
theorem system_command_short_circuit_witness :
    (process_command ⟨[], "pt-BR"⟩ "ligar câmera" "pt-BR" true (.ok ["ai"]) "p.jpg"
        none).response = some "Câmera ativada com sucesso." ∧
    (process_command ⟨[], "pt-BR"⟩ "ligar câmera" "pt-BR" true (.ok ["ai"]) "p.jpg"
        none).aiInvoked = false :=
  (system_command_short_circuit ⟨[], "pt-BR"⟩ "ligar câmera" "pt-BR" "p.jpg" true
    (.ok ["ai"])).1 "Câmera ativada com sucesso." (by decide)

/-- C4: on a transport error, a JSON decode error or a response without
usable choices, `chat_completion` returns the fallback keyed to the
requested language whatever the message list was, the command is answered
with that fallback, and the conversation history still gains exactly one
assistant turn. -/
theorem ai_failure_localized_fallback (st : CoreState) (text language fb pf : String)
    (outcome : HttpOutcome)
    (hsys : handle_system_commands pf text = none)
    (hfb : assoc language fallback_responses = some fb)
    (hout : outcome = .transportError ∨ outcome = .jsonError ∨ outcome = .ok []) :
    (∀ messages, chat_completion messages language outcome = fb) ∧
    (process_command st text language true outcome pf none).response = some fb ∧
    (process_command st text language true outcome pf none).history =
      st.history ++ [⟨"user", text, language⟩, ⟨"assistant", fb, language⟩] ∧
    countRole "assistant" (process_command st text language true outcome pf none).history =
      countRole "assistant" st.history + 1 := by
  have hcc : ∀ messages, chat_completion messages language outcome = fb := by
    rcases hout with h | h | h <;> subst h <;>
      simp [chat_completion, get_fallback_response, hfb]
  have hhist : (process_command st text language true outcome pf none).history =
      st.history ++ [⟨"user", text, language⟩, ⟨"assistant", fb, language⟩] := by
    simp [process_command, hsys, pyTruthy, process_with_ai, procOk, hcc]
  refine ⟨hcc, ?_, hhist, ?_⟩
  · simp [process_command, hsys, pyTruthy, process_with_ai, procOk, hcc]
  · rw [hhist]
    simp [countRole, List.filter_append]

/-- Witness for C4 in English with a transport error. -/
theorem ai_failure_localized_fallback_witness :
    chat_completion [] "en-US" .transportError =
      "Sorry, I\x27m having trouble processing your request right now. Please try again in a moment." ∧
    (process_command ⟨[], "pt-BR"⟩ "olá" "en-US" true .transportError "p.jpg" none).response =
      some "Sorry, I\x27m having trouble processing your request right now. Please try again in a moment." ∧
    countRole "assistant"
      (process_command ⟨[], "pt-BR"⟩ "olá" "en-US" true .transportError "p.jpg" none).history =
      countRole "assistant" [] + 1 := by
  have h := ai_failure_localized_fallback ⟨[], "pt-BR"⟩ "olá" "en-US"
    "Sorry, I\x27m having trouble processing your request right now. Please try again in a moment."
    "p.jpg" .transportError (by decide) (by decide) (Or.inl rfl)
  exact ⟨h.1 [], h.2.1, h.2.2.2⟩

/-- Looking up the key just set finds the new value. -/
theorem assoc_setKey_self (fs : List (String × JVal)) (k : String) (v : JVal) :
    assoc k (setKey fs k v) = some v := by
  induction fs with
  | nil => simp [setKey, assoc]
  | cons p rest ih =>
    obtain ⟨k₀, v₀⟩ := p
    by_cases hk : k₀ = k
    · simp [setKey, hk, assoc]
    · simp [setKey, hk, assoc, ih]

/-- Setting one key leaves lookups of other keys unchanged. -/
theorem assoc_setKey_ne (fs : List (String × JVal)) (k k' : String) (v : JVal)
    (h : k ≠ k') : assoc k' (setKey fs k v) = assoc k' fs := by
  induction fs with
  | nil => simp [setKey, assoc, h]
  | cons p rest ih =>
    obtain ⟨k₀, v₀⟩ := p
    by_cases hk : k₀ = k
    · subst hk
      simp [setKey, assoc, h]
    · simp [setKey, hk, assoc, ih]

/-- Boolean key membership agrees with list membership. -/
theorem keyMem_iff (x : String) (l : List String) : keyMem x l = true ↔ x ∈ l := by
  induction l with
  | nil => simp [keyMem]
  | cons a rest ih =>
    simp [keyMem, ih, beq_iff_eq]
    constructor
    · rintro (h | h)
      · exact Or.inl h.symm
      · exact Or.inr h
    · rintro (h | h)
      · exact Or.inl h.symm
      · exact Or.inr h

/-- Boolean key non-membership agrees with list non-membership. -/
theorem keyMem_eq_false_iff (x : String) (l : List String) :
    keyMem x l = false ↔ x ∉ l := by
  rw [← keyMem_iff x l]
  cases keyMem x l <;> simp

/-- Keys of the empty association list. -/
theorem keysOf_nil : keysOf ([] : List (String × JVal)) = [] := rfl

/-- Keys of a cons cell. -/
theorem keysOf_cons (k : String) (v : JVal) (rest : List (String × JVal)) :
    keysOf ((k, v) :: rest) = k :: keysOf rest := rfl

/-- A key absent from the key list is not found by `assoc`. -/
theorem assoc_eq_none_of_keyMem_false (fs : List (String × JVal)) (k : String)
    (h : keyMem k (keysOf fs) = false) : assoc k fs = none := by
  induction fs with
  | nil => rfl
  | cons p rest ih =>
    obtain ⟨k₀, v₀⟩ := p
    rw [keysOf_cons] at h
    simp only [keyMem, Bool.or_eq_false_iff, beq_eq_false_iff_ne] at h
    simp [assoc, h.1, ih h.2]

/-- Unfolding of well-formedness at a cons cell. -/
theorem wfFields_cons (k : String) (v : JVal) (rest : List (String × JVal)) :
    wfFields ((k, v) :: rest) = true ↔
      keyMem k (keysOf rest) = false ∧ wfv v = true ∧ wfFields rest = true := by
  simp [wfFields, Bool.and_eq_true, Bool.not_eq_true', and_assoc]

/-- Keys after `setKey` are the old keys plus possibly the new one. -/
theorem mem_keysOf_setKey (fs : List (String × JVal)) (k : String) (v : JVal)
    (x : String) : x ∈ keysOf (setKey fs k v) ↔ x ∈ keysOf fs ∨ x = k := by
  induction fs with
  | nil => simp [setKey, keysOf_cons, keysOf_nil]
  | cons p rest ih =>
    obtain ⟨k₀, v₀⟩ := p
    by_cases hk : k₀ = k
    · subst hk
      have hsk : setKey ((k₀, v₀) :: rest) k₀ v = (k₀, v) :: rest := by
        simp [setKey]
      rw [hsk]
      simp only [keysOf_cons, List.mem_cons]
      tauto
    · simp only [setKey, if_neg hk, keysOf_cons, List.mem_cons, ih]
      tauto

/-- Setting a key preserves well-formedness when the new value is well-formed. -/
theorem wfFields_setKey (fs : List (String × JVal)) (k : String) (v : JVal)
    (hfs : wfFields fs = true) (hv : wfv v = true) :
    wfFields (setKey fs k v) = true := by
  induction fs with
  | nil => simp [setKey, wfFields, keysOf, keyMem, hv]
  | cons p rest ih =>
    obtain ⟨k₀, v₀⟩ := p
    rw [wfFields_cons] at hfs
    obtain ⟨h1, h2, h3⟩ := hfs
    by_cases hk : k₀ = k
    · subst hk
      have hsk : setKey ((k₀, v₀) :: rest) k₀ v = (k₀, v) :: rest := by
        simp [setKey]
      rw [hsk, wfFields_cons]
      exact ⟨h1, hv, h3⟩
    · simp only [setKey, if_neg hk]
      rw [wfFields_cons]
      refine ⟨?_, h2, ih h3⟩
      rw [keyMem_eq_false_iff] at h1 ⊢
      intro hmem
      rw [mem_keysOf_setKey] at hmem
      rcases hmem with hmem | hmem
      · exact h1 hmem
      · exact hk hmem

/-- Values found in well-formed fields are well-formed. -/
theorem wfv_of_assoc (fs : List (String × JVal)) (k : String) (v : JVal)
    (hfs : wfFields fs = true) (h : assoc k fs = some v) : wfv v = true := by
  induction fs with
  | nil => exact Option.noConfusion h
  | cons p rest ih =>
    obtain ⟨k₀, v₀⟩ := p
    rw [wfFields_cons] at hfs
    by_cases hk : k₀ = k
    · simp only [assoc, if_pos hk] at h
      injection h with h
      subst h
      exact hfs.2.1
    · simp only [assoc, if_neg hk] at h
      exact ih hfs.2.2 h

/-- After a successful `setPath`, the written path holds the new value. -/
theorem pathGet_setPath (ks : List String) :
    ∀ (fs : List (String × JVal)) (v : JVal) (fs' : List (String × JVal)),
      setPath fs ks v = .ok fs' → pathGet (.obj fs') ks = some v := by
  induction ks with
  | nil =>
    intro fs v fs' h
    exact Except.noConfusion h
  | cons k rest ih =>
    intro fs v fs' h
    cases rest with
    | nil =>
      simp only [setPath] at h
      injection h with h
      subst h
      simp [pathGet, assoc_setKey_self]
    | cons k' ks' =>
      simp only [setPath] at h
      rcases ha : assoc k fs with - | w
      · simp only [ha] at h
        rcases hs : setPath [] (k' :: ks') v with e | sub
        · simp only [hs] at h
          exact Except.noConfusion h
        · simp only [hs] at h
          injection h with h
          subst h
          simp only [pathGet, assoc_setKey_self]
          exact ih [] v sub hs
      · cases w with
        | obj sub =>
          simp only [ha] at h
          rcases hs : setPath sub (k' :: ks') v with e | sub'
          · simp only [hs] at h
            exact Except.noConfusion h
          · simp only [hs] at h
            injection h with h
            subst h
            simp only [pathGet, assoc_setKey_self]
            exact ih sub v sub' hs
        | str s =>
          simp only [ha] at h
          exact Except.noConfusion h
        | num q =>
          simp only [ha] at h
          exact Except.noConfusion h
        | bool b =>
          simp only [ha] at h
          exact Except.noConfusion h
        | null =>
          simp only [ha] at h
          exact Except.noConfusion h
        | arr xs =>
          simp only [ha] at h
          exact Except.noConfusion h

/-- A successful `setPath` preserves well-formedness when the new value is
well-formed. -/
theorem wfFields_setPath (ks : List String) :
    ∀ (fs : List (String × JVal)) (v : JVal) (fs' : List (String × JVal)),
      wfFields fs = true → wfv v = true → setPath fs ks v = .ok fs' →
      wfFields fs' = true := by
  induction ks with
  | nil =>
    intro fs v fs' _ _ h
    exact Except.noConfusion h
  | cons k rest ih =>
    intro fs v fs' hfs hv h
    cases rest with
    | nil =>
      simp only [setPath] at h
      injection h with h
      subst h
      exact wfFields_setKey fs k v hfs hv
    | cons k' ks' =>
      simp only [setPath] at h
      rcases ha : assoc k fs with - | w
      · simp only [ha] at h
        rcases hs : setPath [] (k' :: ks') v with e | sub
        · simp only [hs] at h
          exact Except.noConfusion h
        · simp only [hs] at h
          injection h with h
          subst h
          have hsub : wfFields sub = true := ih [] v sub rfl hv hs
          exact wfFields_setKey fs k (.obj sub) hfs hsub
      · cases w with
        | obj sub =>
          simp only [ha] at h
          rcases hs : setPath sub (k' :: ks') v with e | sub'
          · simp only [hs] at h
            exact Except.noConfusion h
          · simp only [hs] at h
            injection h with h
            subst h
            have hsubwf : wfFields sub = true := wfv_of_assoc fs k (.obj sub) hfs ha
            have hsub' : wfFields sub' = true := ih sub v sub' hsubwf hv hs
            exact wfFields_setKey fs k (.obj sub') hfs hsub'
        | str s =>
          simp only [ha] at h
          exact Except.noConfusion h
        | num q =>
          simp only [ha] at h
          exact Except.noConfusion h
        | bool b =>
          simp only [ha] at h
          exact Except.noConfusion h
        | null =>
          simp only [ha] at h
          exact Except.noConfusion h
        | arr xs =>
          simp only [ha] at h
          exact Except.noConfusion h

/-- Merging one user field leaves lookups of other keys unchanged. -/
theorem assoc_mergeStep_ne (d : List (String × JVal)) (k₀ : String) (v₀ : JVal)
    (k : String) (h : k₀ ≠ k) : assoc k (mergeStep d k₀ v₀) = assoc k d := by
  unfold mergeStep
  split <;> exact assoc_setKey_ne d k₀ k _ h

/-- Lookup in a deep merge, for user fields with distinct keys: a key absent
from the user object falls back to the defaults; a user dictionary found
over a default dictionary is merged recursively; any other user value
wins. -/
theorem assoc_mergeObj (u : List (String × JVal)) (k : String) :
    ∀ d, wfFields u = true → assoc k (mergeObj d u) =
      match assoc k u with
      | none => assoc k d
      | some (.obj uf) =>
        some (match assoc k d with
          | some (.obj df) => JVal.obj (mergeObj df uf)
          | _ => JVal.obj uf)
      | some w => some w := by
  induction u with
  | nil =>
    intro d _
    rfl
  | cons p rest ih =>
    obtain ⟨k₀, v₀⟩ := p
    intro d hu
    rw [wfFields_cons] at hu
    obtain ⟨h1, h2, h3⟩ := hu
    show assoc k (mergeObj (mergeStep d k₀ v₀) rest) = _
    rw [ih (mergeStep d k₀ v₀) h3]
    by_cases hk : k₀ = k
    · subst hk
      have hrest : assoc k₀ rest = none := assoc_eq_none_of_keyMem_false rest k₀ h1
      have hsome : assoc k₀ ((k₀, v₀) :: rest) = some v₀ := by
        simp [assoc]
      simp only [hrest, hsome]
      unfold mergeStep
      rcases hd : assoc k₀ d with - | w
      · cases v₀ <;> simp [hd, assoc_setKey_self]
      · cases w <;> cases v₀ <;> simp [hd, assoc_setKey_self]
    · have hne : assoc k ((k₀, v₀) :: rest) = assoc k rest := by
        simp [assoc, hk]
      rw [hne, assoc_mergeStep_ne d k₀ v₀ k hk]

/-- A dot path leading to a non-dictionary value inside a well-formed user
object still leads to that value after the user object is deep-merged over
any defaults. -/
theorem pathGet_mergeObj (ks : List String) :
    ∀ (d u : List (String × JVal)) (v : JVal), wfFields u = true →
      pathGet (.obj u) ks = some v → v.isObj = false →
      pathGet (.obj (mergeObj d u)) ks = some v := by
  induction ks with
  | nil =>
    intro d u v _ h hv
    injection h with h
    subst h
    exact Bool.noConfusion hv
  | cons k rest ih =>
    intro d u v hu h hv
    simp only [pathGet] at h
    rcases hw : assoc k u with - | w
    · simp only [hw] at h
      exact Option.noConfusion h
    · simp only [hw] at h
      have hm := assoc_mergeObj u k d hu
      rw [hw] at hm
      show pathGet (.obj (mergeObj d u)) (k :: rest) = some v
      cases w with
      | obj wf =>
        have hwf : wfFields wf = true := wfv_of_assoc u k (.obj wf) hu hw
        rcases hd : assoc k d with - | w2
        · simp only [hd] at hm
          simp only [pathGet, hm]
          exact h
        · cases w2 with
          | obj df =>
            simp only [hd] at hm
            simp only [pathGet, hm]
            exact ih df wf v hwf h hv
          | str s =>
            simp only [hd] at hm
            simp only [pathGet, hm]
            exact h
          | num q =>
            simp only [hd] at hm
            simp only [pathGet, hm]
            exact h
          | bool b =>
            simp only [hd] at hm
            simp only [pathGet, hm]
            exact h
          | null =>
            simp only [hd] at hm
            simp only [pathGet, hm]
            exact h
          | arr xs =>
            simp only [hd] at hm
            simp only [pathGet, hm]
            exact h
      | str s =>
        simp only [pathGet, hm]
        exact h
      | num q =>
        simp only [pathGet, hm]
        exact h
      | bool b =>
        simp only [pathGet, hm]
        exact h
      | null =>
        simp only [pathGet, hm]
        exact h
      | arr xs =>
        simp only [pathGet, hm]
        exact h

/-- C6 (amended): whenever `Config.set` succeeds (it raises `TypeError`
when an existing non-dictionary value sits on an intermediate path segment),
the same dot path immediately `get`s exactly the set value; and provided the
set value is not itself a dictionary, the equality also survives
`save_user_config` followed by a fresh `Config` that merges the saved file
over the defaults.  (For dictionary values the reload deep-merges the saved
dictionary with the corresponding default and `get` can return a strictly
larger dictionary — see the counterexample.) -/
theorem config_set_get_roundtrip (apiKey key : String) (v cfg cfg2 dflt : JVal)
    (hset : setCfg cfg key v = .ok cfg2) :
    getCfg cfg2 key dflt = v ∧
    (wfv cfg = true → v.isObj = false →
      getCfg (reloadConfig apiKey (objFields cfg2)) key dflt = v) := by
  cases cfg with
  | obj fs =>
    simp only [setCfg] at hset
    rcases hsp : setPath fs (pySplitDot key) v with e | fs2
    · simp only [hsp] at hset
      exact Except.noConfusion hset
    · simp only [hsp] at hset
      injection hset with hset
      subst hset
      have hpath : pathGet (.obj fs2) (pySplitDot key) = some v :=
        pathGet_setPath (pySplitDot key) fs v fs2 hsp
      constructor
      · rw [getCfg, getLoop_eq_pathGet, hpath]
        rfl
      · intro hwf hobj
        have hv : wfv v = true := by
          cases v with
          | obj o => exact Bool.noConfusion hobj
          | str s => rfl
          | num q => rfl
          | bool b => rfl
          | null => rfl
          | arr xs => rfl
        have hfs2 : wfFields fs2 = true :=
          wfFields_setPath (pySplitDot key) fs v fs2 hwf hv hsp
        have hmerged : pathGet (.obj (mergeObj (defaultFields apiKey) fs2))
            (pySplitDot key) = some v :=
          pathGet_mergeObj (pySplitDot key) (defaultFields apiKey) fs2 v hfs2 hpath hobj
        show getCfg (.obj (mergeObj (defaultFields apiKey) fs2)) key dflt = v
        rw [getCfg, getLoop_eq_pathGet, hmerged]
        rfl
  | str s => exact Except.noConfusion hset
  | num q => exact Except.noConfusion hset
  | bool b => exact Except.noConfusion hset
  | null => exact Except.noConfusion hset
  | arr xs => exact Except.noConfusion hset

/-- Witness for the amended C6: set `voice.rate` to 200 on the default
configuration; `get` returns 200 both immediately and after the save/reload
round trip. -/
theorem config_set_get_roundtrip_witness :
    getCfg (cfgAfter (setCfg (defaultConfig "") "voice.rate" (.num 200)))
      "voice.rate" .null = .num 200 ∧
    getCfg (reloadConfig ""
        (objFields (cfgAfter (setCfg (defaultConfig "") "voice.rate" (.num 200)))))
      "voice.rate" .null = .num 200 := by
  have h := config_set_get_roundtrip "" "voice.rate" (.num 200) (defaultConfig "")
    (cfgAfter (setCfg (defaultConfig "") "voice.rate" (.num 200))) .null rfl
  exact ⟨h.1, h.2 rfl rfl⟩

/-- C6 (counterexample): setting a key to a dictionary value breaks the
save/reload half of the claim.  After `set("features", {})` the in-memory
`get` returns `{}`, but a fresh `Config` deep-merges the saved `{}` with the
default `features` dictionary, so `get` returns the full default dictionary,
not the value that was set. -/
theorem config_dict_roundtrip_fails :
    getCfg (cfgAfter (setCfg (defaultConfig "") "features" (.obj [])))
      "features" .null = .obj [] ∧
    getCfg (reloadConfig ""
        (objFields (cfgAfter (setCfg (defaultConfig "") "features" (.obj [])))))
      "features" .null =
      .obj [ ("voice_activation", .bool true), ("wake_word", .str "jarvis"),
             ("auto_listen", .bool true), ("face_recognition", .bool false),
             ("gesture_control", .bool false), ("home_automation", .bool false) ] ∧
    JVal.obj [ (("voice_activation" : String), JVal.bool true), ("wake_word", .str "jarvis"),
               ("auto_listen", .bool true), ("face_recognition", .bool false),
               ("gesture_control", .bool false), ("home_automation", .bool false) ] ≠
      .obj [] := by
  refine ⟨rfl, rfl, ?_⟩
  intro h
  injection h with h
  exact List.noConfusion h

end Jarvis
